import Mathlib

/-!
Shallow embedding of the core of the project-lume backend (NestJS/Prisma
Kanban tracker): the dual-token authentication and rotation subsystem
(AuthService, JwtRefreshStrategy, UsersService), the project-scoped RBAC
model (ProjectsService, project-access helper), the ticket numbering and
reordering engine (TicketsService), and the boundary exception filter
(GlobalExceptionFilter).  Persistence is modelled as in-memory lists with
the unique constraints of the Prisma schema made explicit; bcrypt is
idealised as a constructor recording its preimage (compare succeeds exactly
on the hashed value), and the JWT signer is idealised as a fresh-nonce
source (each generateTokens call consumes a strictly increasing nonce,
reflecting the CSPRNG/timestamp freshness of issued tokens).
-/

namespace Lume

/-- Role enum from the Prisma schema (`Role = OWNER | ADMIN | MEMBER`). -/
inductive Role where
  | OWNER
  | ADMIN
  | MEMBER
deriving DecidableEq, Repr

/-- The numeric role hierarchy from `assertRole` in
`common/helpers/project-access.helper.ts`: OWNER=3, ADMIN=2, MEMBER=1. -/
def hierarchy : Role → Nat
  | .OWNER => 3
  | .ADMIN => 2
  | .MEMBER => 1

/-- The typed domain errors raised by the services (NestJS HttpException
subclasses used in the repository). -/
inductive DomainError where
  | Conflict (msg : String)
  | Unauthorized (msg : String)
  | Forbidden (msg : String)
  | NotFound (msg : String)
  | BadRequest (msg : String)
deriving DecidableEq, Repr

/-- `assertRole` from `common/helpers/project-access.helper.ts`: fails with
Forbidden when the user's hierarchy level is below the required one. -/
def assertRole (userRole requiredRole : Role) (message : String) :
    Except DomainError Unit :=
  if hierarchy userRole < hierarchy requiredRole then
    .error (.Forbidden message)
  else
    .ok ()

/-- Default message of `assertRole`. -/
def assertRoleDefaultMsg : String :=
  "You do not have permission to perform this action"

-- ──────────────────────────────────────────────────────────────────────
-- Authentication model (AuthService, UsersService, JwtRefreshStrategy)
-- ──────────────────────────────────────────────────────────────────────

/-- The two independent signing secrets (`jwt.accessSecret`,
`jwt.refreshSecret`). -/
inductive Secret where
  | accessSecret
  | refreshSecret
deriving DecidableEq, Repr

/-- A signed JWT: payload `{sub, email}` plus issue/expiry metadata and the
secret it was signed with.  The `nonce` field idealises the freshness of
the signer (iat/CSPRNG): each `generateTokens` call uses a fresh nonce. -/
structure Token where
  sub : Nat
  email : String
  secret : Secret
  iat : Nat
  exp : Nat
  nonce : Nat
deriving DecidableEq, Repr

/-- A bcrypt password hash, idealised: `bcrypt` records its preimage, and
`invalidConstant` is the fixed literal
`$2b$12$invalidhashfortimingattackprevention` from `AuthService.login`,
which is not a well-formed bcrypt digest so `bcrypt.compare` never accepts
against it. -/
inductive PwHash where
  | bcrypt (preimage : String) (cost : Nat)
  | invalidConstant
deriving DecidableEq, Repr

/-- `bcrypt.compare(raw, hash)` for password hashes: succeeds exactly when
`hash` was produced from `raw`. -/
def pwCompare (raw : String) (h : PwHash) : Bool :=
  match h with
  | .bcrypt p _ => raw = p
  | .invalidConstant => false

/-- A bcrypt hash of a refresh token at rest (`bcrypt.hash(refreshToken, 10)`
in `AuthService.storeRefreshToken`), idealised as recording the token. -/
structure TokHash where
  tok : Token
deriving DecidableEq, Repr

/-- `bcrypt.compare(refreshToken, user.refreshToken)` in
`JwtRefreshStrategy.validate`. -/
def tokCompare (raw : Token) (h : TokHash) : Bool :=
  raw = h.tok

/-- A row of the `users` table (the fields the auth core touches). -/
structure UserRec where
  id : Nat
  email : String
  username : String
  firstName : String
  lastName : String
  hashedPassword : PwHash
  isActive : Bool
  refreshToken : Option TokHash
deriving DecidableEq, Repr

/-- The sanitized user view (`PublicUser = Omit<User, 'hashedPassword' |
'refreshToken'>`). -/
structure PublicUser where
  id : Nat
  email : String
  username : String
  firstName : String
  lastName : String
  isActive : Bool
deriving DecidableEq, Repr

/-- `AuthService.sanitizeUser` / the destructuring in
`JwtRefreshStrategy.validate`: drop `hashedPassword` and `refreshToken`. -/
def sanitizeUser (u : UserRec) : PublicUser :=
  ⟨u.id, u.email, u.username, u.firstName, u.lastName, u.isActive⟩

/-- State of the authentication subsystem: the users table plus the
idealised freshness counter of the token signer. -/
structure AuthState where
  users : List UserRec
  nonce : Nat
deriving DecidableEq, Repr

namespace UsersService

/-- `UsersService.findByEmail`: point lookup by the unique email key. -/
def findByEmail (st : AuthState) (email : String) : Option UserRec :=
  st.users.find? (fun u => decide (u.email = email))

/-- `UsersService.findById`: point lookup by primary key. -/
def findById (st : AuthState) (id : Nat) : Option UserRec :=
  st.users.find? (fun u => decide (u.id = id))

/-- `UsersService.updateRefreshToken`: `prisma.user.update` writing only the
`refreshToken` column of the row with the given id. -/
def updateRefreshToken (st : AuthState) (userId : Nat)
    (hashedRefreshToken : Option TokHash) : AuthState :=
  { st with
    users := st.users.map (fun u =>
      if u.id = userId then { u with refreshToken := hashedRefreshToken } else u) }

end UsersService

/-- Access-token lifetime (`'15m'`, in seconds) and refresh-token lifetime
(`'7d'`, in seconds) from the jwt config defaults. -/
def accessTokenTtl : Nat := 15 * 60

/-- Refresh-token lifetime in seconds (`'7d'`). -/
def refreshTokenTtl : Nat := 7 * 24 * 60 * 60

namespace AuthService

/-- `AuthService.generateTokens`: sign the payload `{sub, email}` twice, with
the access secret (15 min expiry) and the refresh secret (7 day expiry).
Consumes one fresh nonce from the idealised signer. -/
def generateTokens (st : AuthState) (userId : Nat) (email : String)
    (now : Nat) : (Token × Token) × AuthState :=
  let accessToken : Token :=
    ⟨userId, email, .accessSecret, now, now + accessTokenTtl, st.nonce⟩
  let refreshToken : Token :=
    ⟨userId, email, .refreshSecret, now, now + refreshTokenTtl, st.nonce⟩
  ((accessToken, refreshToken), { st with nonce := st.nonce + 1 })

/-- `AuthService.storeRefreshToken`: hash the refresh token (cost 10) and
persist it through `UsersService.updateRefreshToken`. -/
def storeRefreshToken (st : AuthState) (userId : Nat) (refreshToken : Token) :
    AuthState :=
  UsersService.updateRefreshToken st userId (some ⟨refreshToken⟩)

/-- The login DTO (`LoginDto`). -/
structure LoginDto where
  email : String
  password : String
deriving DecidableEq, Repr

end AuthService

deriving instance DecidableEq for Except

namespace AuthService

/-- Result of a `login` run: the outcome, the post-state, and the number of
`bcrypt.compare` invocations the run performed (the source performs exactly
one, unconditionally, before any branching on the lookup result). -/
structure LoginResult where
  outcome : Except DomainError PublicUser
  state : AuthState
  bcryptCompares : Nat
deriving DecidableEq, Repr

/-- `AuthService.login`: look up by email; compare the supplied password
against the account's hash, or against the fixed invalid-hash constant when
no account was found (`user?.hashedPassword ?? '$2b$12$invalidhash…'`); fail
with Unauthorized "Invalid credentials" when the user is missing or the
password wrong; fail with Unauthorized "Account has been deactivated" when
inactive; otherwise issue and store a fresh token pair. -/
def login (st : AuthState) (dto : LoginDto) (now : Nat) : LoginResult :=
  let user? := UsersService.findByEmail st dto.email
  let passwordToCompare :=
    match user? with
    | some u => u.hashedPassword
    | none => PwHash.invalidConstant
  let isPasswordValid := pwCompare dto.password passwordToCompare
  match user? with
  | none => ⟨.error (.Unauthorized "Invalid credentials"), st, 1⟩
  | some user =>
    if isPasswordValid = false then
      ⟨.error (.Unauthorized "Invalid credentials"), st, 1⟩
    else if user.isActive = false then
      ⟨.error (.Unauthorized "Account has been deactivated"), st, 1⟩
    else
      let tokens := generateTokens st user.id user.email now
      let st₂ := storeRefreshToken tokens.2 user.id tokens.1.2
      ⟨.ok (sanitizeUser user), st₂, 1⟩

/-- `AuthService.refreshTokens`: unconditionally generate a new token pair
for the (guard-verified) subject and store the new refresh-token hash,
overwriting the previous one. -/
def refreshTokens (st : AuthState) (userId : Nat) (email : String)
    (now : Nat) : String × AuthState :=
  let tokens := generateTokens st userId email now
  let st₂ := storeRefreshToken tokens.2 userId tokens.1.2
  ("Token refreshed successfully", st₂)

/-- `AuthService.logout`: if the account currently stores a refresh-token
hash, clear it; always succeeds with the same message (idempotent). -/
def logout (st : AuthState) (userId : Nat) : String × AuthState :=
  let user? := UsersService.findById st userId
  let st' :=
    match user? with
    | some user =>
      match user.refreshToken with
      | some _ => UsersService.updateRefreshToken st userId none
      | none => st
    | none => st
  ("Logged out successfully", st')

end AuthService

namespace JwtRefreshStrategy

/-- `JwtRefreshStrategy.validate` (after passport has verified signature and
expiry): re-read the refresh token from the cookie, load the account by the
payload's `sub`, reject when the account is missing, inactive, or stores no
refresh-token hash, then compare the raw token against the stored hash. -/
def validate (st : AuthState) (cookieToken : Option Token) (payloadSub : Nat) :
    Except DomainError PublicUser :=
  match cookieToken with
  | none => .error (.Unauthorized "Refresh token not found")
  | some refreshToken =>
    match UsersService.findById st payloadSub with
    | none => .error (.Unauthorized "Access denied")
    | some user =>
      match user.refreshToken with
      | none => .error (.Unauthorized "Access denied")
      | some stored =>
        if user.isActive = false then
          .error (.Unauthorized "Access denied")
        else if tokCompare refreshToken stored = false then
          .error (.Unauthorized "Access denied")
        else
          .ok (sanitizeUser user)

end JwtRefreshStrategy

/-- The full Refresh Guard pipeline (`JwtRefreshGuard` /
`JwtRefreshStrategy`): passport first verifies the token's signature against
the refresh secret and its expiry (`ignoreExpiration: false`), then runs
`validate` with the token both as cookie value and as decoded payload. -/
def refreshGuard (st : AuthState) (tok : Token) (now : Nat) :
    Except DomainError PublicUser :=
  if tok.secret ≠ Secret.refreshSecret then
    .error (.Unauthorized "Unauthorized")
  else if tok.exp ≤ now then
    .error (.Unauthorized "Unauthorized")
  else
    JwtRefreshStrategy.validate st (some tok) tok.sub

-- ──────────────────────────────────────────────────────────────────────
-- Project / board / ticket model (ProjectsService, TicketsService)
-- ──────────────────────────────────────────────────────────────────────

/-- A row of the `projects` table (fields the core touches). -/
structure ProjectRec where
  id : Nat
  name : String
  slug : String
  key : String
  description : Option String
  isArchived : Bool
deriving DecidableEq, Repr

/-- A row of the `project_members` table: the (account, project, role)
triple, unique per (userId, projectId). -/
structure ProjectMember where
  userId : Nat
  projectId : Nat
  role : Role
deriving DecidableEq, Repr

/-- A row of the `boards` table (one board per project,
`boards_project_id_key` unique). -/
structure BoardRec where
  id : Nat
  projectId : Nat
  name : String
deriving DecidableEq, Repr

/-- A row of the `statuses` table (a board column). -/
structure StatusRec where
  id : Nat
  boardId : Nat
  name : String
  color : String
  order : Nat
  isDefault : Bool
deriving DecidableEq, Repr

/-- A row of the `tickets` table (fields the sequencer/reorder engine
touches). -/
structure TicketRec where
  id : Nat
  projectId : Nat
  number : Nat
  statusId : Nat
  order : Nat
deriving DecidableEq, Repr

/-- The user directory as the projects module sees it (`prisma.user`
lookups by unique email). -/
structure DirUser where
  id : Nat
  email : String
deriving DecidableEq, Repr

/-- The relational store backing the projects/boards/tickets modules.
`nextId` is the id allocator (all existing row ids are below it in a
well-formed store). -/
structure ProjState where
  users : List DirUser
  projects : List ProjectRec
  members : List ProjectMember
  boards : List BoardRec
  statuses : List StatusRec
  tickets : List TicketRec
  nextId : Nat
deriving DecidableEq, Repr

/-- `getProjectMember` from `common/helpers/project-access.helper.ts`:
NotFound when the project does not exist, Forbidden when the caller has no
membership row, otherwise the membership. -/
def getProjectMember (st : ProjState) (projectId userId : Nat) :
    Except DomainError ProjectMember :=
  match st.projects.find? (fun p => decide (p.id = projectId)) with
  | none => .error (.NotFound "Project not found")
  | some _ =>
    match st.members.find?
        (fun m => decide (m.userId = userId ∧ m.projectId = projectId)) with
    | none => .error (.Forbidden "You are not a member of this project")
    | some member => .ok member

namespace ProjectsService

/-- `DEFAULT_STATUSES` from `projects.service.ts`: (name, color, order,
isDefault) of the four columns seeded with every new project. -/
def DEFAULT_STATUSES : List (String × String × Nat × Bool) :=
  [("To Do", "#6B7280", 0, true),
   ("In Progress", "#3B82F6", 1, false),
   ("In Review", "#F59E0B", 2, false),
   ("Done", "#10B981", 3, false)]

/-- `CreateProjectDto` (name, key, optional description).  The `slugify`
library call is an external collaborator; its output is abstracted as the
raw name, which does not affect any claim. -/
structure CreateProjectDto where
  name : String
  key : String
  description : Option String
deriving DecidableEq, Repr

/-- One candidate of `generateUniqueSlug`: the base slug for counter 1, and
`base-counter` afterwards. -/
def slugCandidate (base : String) (counter : Nat) : String :=
  if counter ≤ 1 then base else base ++ "-" ++ toString counter

/-- `ProjectsService.generateUniqueSlug`: append an increasing counter until
the slug is free.  The source's while-loop terminates because the store is
finite; here the first free candidate among `projects.length + 2` candidates
is taken (by pigeonhole one of them is always free). -/
def generateUniqueSlug (projects : List ProjectRec) (base : String) : String :=
  match (List.range (projects.length + 2)).map
      (fun k => slugCandidate base (k + 1)) |>.find?
      (fun s => (projects.find? (fun p => decide (p.slug = s))).isNone) with
  | some s => s
  | none => base

/-- `ProjectsService.create`: reject a taken project key with Conflict, then
in one transaction create the project row, the creator's OWNER membership,
and the board with the four default statuses. -/
def create (st : ProjState) (userId : Nat) (dto : CreateProjectDto) :
    Except DomainError (ProjectRec × ProjState) :=
  if (st.projects.find? (fun p => decide (p.key = dto.key))).isSome then
    .error (.Conflict ("Project key \"" ++ dto.key ++ "\" is already in use"))
  else
    let slug := generateUniqueSlug st.projects dto.name
    let project : ProjectRec :=
      ⟨st.nextId, dto.name, slug, dto.key, dto.description, false⟩
    let creator : ProjectMember := ⟨userId, project.id, Role.OWNER⟩
    let board : BoardRec := ⟨st.nextId + 1, project.id, dto.name ++ " Board"⟩
    let newStatuses : List StatusRec :=
      DEFAULT_STATUSES.enum.map
        (fun e => ⟨st.nextId + 2 + e.1, board.id, e.2.1, e.2.2.1,
                   e.2.2.2.1, e.2.2.2.2⟩)
    .ok (project,
      { st with
        projects := st.projects ++ [project]
        members := st.members ++ [creator]
        boards := st.boards ++ [board]
        statuses := st.statuses ++ newStatuses
        nextId := st.nextId + 2 + DEFAULT_STATUSES.length })

/-- Insertion of a status into a list sorted by ascending `order`
(modelling the `orderBy: order asc` of `findOne`). -/
def insertByOrder (s : StatusRec) : List StatusRec → List StatusRec
  | [] => [s]
  | t :: ts => if s.order ≤ t.order then s :: t :: ts else t :: insertByOrder s ts

/-- Sort statuses by ascending `order` (`orderBy: { order: 'asc' }`). -/
def sortByOrder (l : List StatusRec) : List StatusRec :=
  l.foldr insertByOrder []

/-- The shape `ProjectsService.findOne` returns: the project row with its
members and its board's statuses (sorted by order). -/
structure ProjectView where
  project : ProjectRec
  members : List ProjectMember
  board : Option (BoardRec × List StatusRec)
deriving DecidableEq, Repr

/-- `ProjectsService.findOne`: membership check, then the project with its
members array and its board including statuses ordered by `order` asc. -/
def findOne (st : ProjState) (projectId userId : Nat) :
    Except DomainError ProjectView :=
  match getProjectMember st projectId userId with
  | .error e => .error e
  | .ok _ =>
  match st.projects.find? (fun p => decide (p.id = projectId)) with
  | none => .error (.NotFound "Project not found")
  | some project =>
    let members := st.members.filter (fun m => decide (m.projectId = projectId))
    let board? :=
      match st.boards.find? (fun b => decide (b.projectId = projectId)) with
      | none => none
      | some b =>
        some (b, sortByOrder
          (st.statuses.filter (fun s => decide (s.boardId = b.id))))
    .ok ⟨project, members, board?⟩

/-- The roles `InviteMemberDto` admits (`@IsEnum([Role.ADMIN, Role.MEMBER])`
— OWNER is not an accepted value). -/
inductive InviteRole where
  | admin
  | member
deriving DecidableEq, Repr

/-- Embedding of an invite role into the role enum. -/
def InviteRole.toRole : InviteRole → Role
  | .admin => Role.ADMIN
  | .member => Role.MEMBER

/-- `InviteMemberDto`: an email and an optional role restricted to
ADMIN/MEMBER. -/
structure InviteMemberDto where
  email : String
  role : Option InviteRole
deriving DecidableEq, Repr

/-- `ProjectsService.inviteMember`: membership + ADMIN check on the inviter,
NotFound for an unknown email, Conflict when the invitee already has a
membership, otherwise create the membership with `dto.role ?? MEMBER`. -/
def inviteMember (st : ProjState) (projectId inviterId : Nat)
    (dto : InviteMemberDto) : Except DomainError (ProjectMember × ProjState) :=
  match getProjectMember st projectId inviterId with
  | .error e => .error e
  | .ok inviter =>
  match assertRole inviter.role Role.ADMIN assertRoleDefaultMsg with
  | .error e => .error e
  | .ok _ =>
  match st.users.find? (fun u => decide (u.email = dto.email)) with
  | none => .error (.NotFound "No user found with that email address")
  | some userToInvite =>
    match st.members.find?
        (fun m => decide (m.userId = userToInvite.id ∧ m.projectId = projectId)) with
    | some _ => .error (.Conflict "User is already a member of this project")
    | none =>
      let newMember : ProjectMember :=
        ⟨userToInvite.id, projectId,
         ((dto.role.map InviteRole.toRole).getD Role.MEMBER)⟩
      .ok (newMember, { st with members := st.members ++ [newMember] })

/-- `ProjectsService.removeMember`: membership + ADMIN check on the
requester, NotFound for a missing target membership, Forbidden when the
target is the OWNER, Forbidden when the target is an ADMIN and the requester
is not the OWNER, otherwise delete the target membership (Prisma delete by
the unique (userId, projectId) key, modelled as erasing the first — by the
unique constraint the only — matching row). -/
def removeMember (st : ProjState) (projectId requesterId targetUserId : Nat) :
    Except DomainError (String × ProjState) :=
  match getProjectMember st projectId requesterId with
  | .error e => .error e
  | .ok requester =>
  match assertRole requester.role Role.ADMIN assertRoleDefaultMsg with
  | .error e => .error e
  | .ok _ =>
  match st.members.find?
      (fun m => decide (m.userId = targetUserId ∧ m.projectId = projectId)) with
  | none => .error (.NotFound "Member not found in this project")
  | some target =>
    if target.role = Role.OWNER then
      .error (.Forbidden "The project owner cannot be removed")
    else if target.role = Role.ADMIN ∧ requester.role ≠ Role.OWNER then
      .error (.Forbidden "Only the owner can remove an admin")
    else
      .ok ("Member removed successfully",
        { st with
          members := st.members.eraseP
            (fun m => decide (m.userId = targetUserId ∧ m.projectId = projectId)) })

end ProjectsService

namespace TicketsService

/-- `TicketsService.validateStatusInProject`: resolve the project's board
(NotFound when absent), then require the status to be attached to that board
(BadRequest otherwise). -/
def validateStatusInProject (st : ProjState) (statusId projectId : Nat) :
    Except DomainError StatusRec :=
  match st.boards.find? (fun b => decide (b.projectId = projectId)) with
  | none => .error (.NotFound "Board not found")
  | some board =>
    match st.statuses.find?
        (fun s => decide (s.id = statusId ∧ s.boardId = board.id)) with
    | none => .error (.BadRequest "Status does not belong to this project")
    | some status => .ok status

/-- `CreateTicketDto` (the field the sequencer uses). -/
structure CreateTicketDto where
  statusId : Nat
deriving DecidableEq, Repr

/-- The `findFirst orderBy number desc` read of `create`: the maximum ticket
number in the project, 0 when the project has no tickets
(`lastTicket?.number ?? 0`). -/
def maxTicketNumber (tickets : List TicketRec) (projectId : Nat) : Nat :=
  (tickets.filter (fun t => decide (t.projectId = projectId))).foldr
    (fun t acc => max t.number acc) 0

/-- The `findFirst orderBy order desc` read of `create`:
`(lastInColumn?.order ?? -1) + 1`, i.e. 0 for an empty column and one past
the maximum order otherwise. -/
def nextOrderInColumn (tickets : List TicketRec) (statusId : Nat) : Nat :=
  let col := tickets.filter (fun t => decide (t.statusId = statusId))
  if col.isEmpty then 0
  else (col.foldr (fun t acc => max t.order acc) 0) + 1

/-- The store's `tickets_project_id_number_key` unique constraint as the
final arbiter of `tx.ticket.create`: inserting a row whose (projectId,
number) pair already exists fails with a conflict, any other insert appends
the row. -/
def dbInsertTicket (tickets : List TicketRec) (t : TicketRec) :
    Except DomainError (List TicketRec) :=
  if tickets.any
      (fun u => decide (u.projectId = t.projectId ∧ u.number = t.number)) then
    .error (.Conflict "Unique constraint failed on (project_id, number)")
  else
    .ok (tickets ++ [t])

/-- `TicketsService.create`: membership and status validation, then in one
transaction read the maximum project number, assign `max + 1`, append at the
bottom of the target column, and insert through the unique constraint. -/
def create (st : ProjState) (projectId userId : Nat) (dto : CreateTicketDto) :
    Except DomainError (TicketRec × ProjState) :=
  match getProjectMember st projectId userId with
  | .error e => .error e
  | .ok _ =>
  match validateStatusInProject st dto.statusId projectId with
  | .error e => .error e
  | .ok _ =>
  let nextNumber := maxTicketNumber st.tickets projectId + 1
  let ord := nextOrderInColumn st.tickets dto.statusId
  let t : TicketRec := ⟨st.nextId, projectId, nextNumber, dto.statusId, ord⟩
  match dbInsertTicket st.tickets t with
  | .error e => .error e
  | .ok tickets' =>
    .ok (t, { st with tickets := tickets', nextId := st.nextId + 1 })

/-- `MoveTicketDto`: target column and zero-based target index
(`@IsInt() @Min(0)`). -/
structure MoveTicketDto where
  statusId : Nat
  order : Nat
deriving DecidableEq, Repr

/-- The `updateMany` of `move`: every ticket in the target column whose
order is at least the target order, other than the moved ticket itself, has
its order incremented by one. -/
def shiftTicket (targetStatus targetOrder movedId : Nat) (t : TicketRec) :
    TicketRec :=
  if t.statusId = targetStatus ∧ targetOrder ≤ t.order ∧ t.id ≠ movedId then
    { t with order := t.order + 1 }
  else t

/-- The final `update` of `move`: the moved ticket is placed in the target
column at the target order. -/
def placeTicket (movedId targetStatus targetOrder : Nat) (t : TicketRec) :
    TicketRec :=
  if t.id = movedId then
    { t with statusId := targetStatus, order := targetOrder }
  else t

/-- The transaction body of `move`: shift the target column, then place the
moved ticket. -/
def applyMove (tickets : List TicketRec) (movedId targetStatus targetOrder : Nat) :
    List TicketRec :=
  (tickets.map (shiftTicket targetStatus targetOrder movedId)).map
    (placeTicket movedId targetStatus targetOrder)

/-- `TicketsService.move`: membership and status validation, NotFound when
the ticket is not in the project, then the transactional shift-and-place. -/
def move (st : ProjState) (projectId ticketId userId : Nat)
    (dto : MoveTicketDto) : Except DomainError ProjState :=
  match getProjectMember st projectId userId with
  | .error e => .error e
  | .ok _ =>
  match validateStatusInProject st dto.statusId projectId with
  | .error e => .error e
  | .ok _ =>
  match st.tickets.find?
      (fun t => decide (t.id = ticketId ∧ t.projectId = projectId)) with
  | none => .error (.NotFound "Ticket not found")
  | some _ =>
    .ok { st with
          tickets := applyMove st.tickets ticketId dto.statusId dto.order }

end TicketsService

/-- The order values of the tickets of one column, in store order. -/
def columnOrders (tickets : List TicketRec) (statusId : Nat) : List Nat :=
  (tickets.filter (fun t => decide (t.statusId = statusId))).map
    (fun t => t.order)

/-- A list of order values is dense when it has no duplicates and every
value is below the length — i.e. the values are exactly 0..k-1 for k
tickets. -/
def denseOrders (os : List Nat) : Prop :=
  os.Nodup ∧ ∀ o ∈ os, o < os.length

instance (os : List Nat) : Decidable (denseOrders os) := by
  unfold denseOrders; infer_instance

/-- Pairwise distinctness of (projectId, number) pairs — the invariant
guarded by `tickets_project_id_number_key`. -/
def projectNumbersDistinct (tickets : List TicketRec) : Prop :=
  tickets.Pairwise (fun a b => a.projectId = b.projectId → a.number ≠ b.number)

instance (tickets : List TicketRec) : Decidable (projectNumbersDistinct tickets) := by
  unfold projectNumbersDistinct; infer_instance

/-- Number of OWNER memberships of one project. -/
def ownerCount (members : List ProjectMember) (projectId : Nat) : Nat :=
  (members.filter
    (fun m => decide (m.projectId = projectId ∧ m.role = Role.OWNER))).length

/-- Well-formed store: every row id and foreign key is below the allocator,
so freshly allocated ids collide with nothing. -/
def wfState (st : ProjState) : Prop :=
  (∀ u ∈ st.users, u.id < st.nextId) ∧
  (∀ p ∈ st.projects, p.id < st.nextId) ∧
  (∀ m ∈ st.members, m.projectId < st.nextId) ∧
  (∀ b ∈ st.boards, b.id < st.nextId ∧ b.projectId < st.nextId) ∧
  (∀ s ∈ st.statuses, s.boardId < st.nextId) ∧
  (∀ t ∈ st.tickets, t.id < st.nextId ∧ t.projectId < st.nextId ∧
    t.statusId < st.nextId)

instance (st : ProjState) : Decidable (wfState st) := by
  unfold wfState; infer_instance

-- ──────────────────────────────────────────────────────────────────────
-- Boundary exception filter (GlobalExceptionFilter)
-- ──────────────────────────────────────────────────────────────────────

/-- What reaches `GlobalExceptionFilter.catch`: a NestJS HttpException whose
response is a plain string, an HttpException whose response is an object
with optional `message`/`error` fields, a runtime `Error` (message plus
stack), or a thrown value that is not an `Error` at all. -/
inductive CaughtException where
  | httpStr (status : Nat) (response : String)
  | httpObj (status : Nat) (message : Option (String ⊕ List String))
      (error : Option String)
  | jsError (message : String) (stack : String)
  | nonError
deriving DecidableEq, Repr

/-- The uniform error body (`ErrorResponse` in the filter).  The stack trace
of a runtime error is logged, never part of this shape. -/
structure ErrorResponse where
  statusCode : Nat
  message : String ⊕ List String
  error : String
  path : String
  timestamp : String
deriving DecidableEq, Repr

/-- `GlobalExceptionFilter.catch`, normalisation part: defaults 500 /
"Internal server error" / "Internal Server Error"; an HttpException
overrides status and (when present) message and error; a runtime `Error`
keeps the 500 status and default error name but sets the body message to
the exception's own message (its stack is only logged). -/
def globalExceptionFilter (exception : CaughtException)
    (path timestamp : String) : ErrorResponse :=
  let defaultMessage : String ⊕ List String := Sum.inl "Internal server error"
  let defaultError := "Internal Server Error"
  match exception with
  | .httpStr status response =>
    ⟨status, Sum.inl response, defaultError, path, timestamp⟩
  | .httpObj status message? error? =>
    ⟨status, message?.getD defaultMessage, error?.getD defaultError,
     path, timestamp⟩
  | .jsError message _stack =>
    ⟨500, Sum.inl message, defaultError, path, timestamp⟩
  | .nonError =>
    ⟨500, defaultMessage, defaultError, path, timestamp⟩

-- ──────────────────────────────────────────────────────────────────────
-- Derived notions and concrete fixtures used by the theorems
-- ──────────────────────────────────────────────────────────────────────

/-- The order displacement the reorder engine applies to a target-column
ticket: +1 exactly when its order is at least the insertion index. -/
def shiftGe (i o : Nat) : Nat := if i ≤ o then o + 1 else o

/-- Frame relation for C10: all account fields except the rotating
refresh-token hash agree. -/
def sameExceptRefreshToken (a b : UserRec) : Prop :=
  a.id = b.id ∧ a.email = b.email ∧ a.username = b.username ∧
  a.firstName = b.firstName ∧ a.lastName = b.lastName ∧
  a.hashedPassword = b.hashedPassword ∧ a.isActive = b.isActive

/-- Concrete refresh token for the authentication fixture. -/
def fixtureToken : Token := ⟨1, "a@b.c", .refreshSecret, 0, refreshTokenTtl, 0⟩

/-- The fixture account: active, with the hash of `fixtureToken` stored. -/
def fixtureUser : UserRec :=
  ⟨1, "a@b.c", "ab", "A", "B", .bcrypt "hunter2" 12, true, some ⟨fixtureToken⟩⟩

/-- Authentication fixture: one active account whose stored refresh-token
hash is the hash of `fixtureToken`. -/
def authFixture : AuthState :=
  { users := [fixtureUser], nonce := 1 }

/-- Relational fixture: one project with an OWNER (id 5) and a MEMBER
(id 6), a spare user (id 7), a board with two columns and three tickets. -/
def projFixture : ProjState :=
  { users := [⟨5, "o@x.c"⟩, ⟨6, "m@x.c"⟩, ⟨7, "new@x.c"⟩],
    projects := [⟨1, "P", "p", "PRJ", none, false⟩],
    members := [⟨5, 1, Role.OWNER⟩, ⟨6, 1, Role.MEMBER⟩],
    boards := [⟨10, 1, "P Board"⟩],
    statuses := [⟨20, 10, "To Do", "#6B7280", 0, true⟩,
                 ⟨21, 10, "Done", "#10B981", 3, false⟩],
    tickets := [⟨100, 1, 1, 20, 0⟩, ⟨101, 1, 2, 20, 1⟩, ⟨102, 1, 3, 21, 0⟩],
    nextId := 200 }

-- ──────────────────────────────────────────────────────────────────────
-- Theorems
-- ──────────────────────────────────────────────────────────────────────

/-- C9 (counterexample): for an unexpected runtime error reaching the
boundary filter — here a store connection failure whose `Error.message` is
"connect ECONNREFUSED 127.0.0.1:5432" — the response body's message equals
the internal exception's own message instead of the generic
"Internal server error", so the claim that the response does not expose
the internal message is false at this input. -/
theorem C9_counterexample :
    (globalExceptionFilter
        (.jsError "connect ECONNREFUSED 127.0.0.1:5432" "stack frames")
        "/api/v1/projects" "2026-01-01T00:00:00Z").message =
      Sum.inl "connect ECONNREFUSED 127.0.0.1:5432" ∧
    Sum.inl "connect ECONNREFUSED 127.0.0.1:5432" ≠
      (Sum.inl "Internal server error" : String ⊕ List String) :=
  ⟨rfl, by decide⟩

/-- C9 (amended): for every failure that is not a typed domain error the
filter responds with status 500 and error name "Internal Server Error", and
the stack trace is never part of the response; however the response message
field carries the underlying Error's own message — the fully generic
"Internal server error" message is used only when the thrown value is not
an `Error` at all. -/
theorem C9_filter_amended (m stack path ts : String) :
    globalExceptionFilter (.jsError m stack) path ts =
      ⟨500, Sum.inl m, "Internal Server Error", path, ts⟩ ∧
    globalExceptionFilter .nonError path ts =
      ⟨500, Sum.inl "Internal server error", "Internal Server Error",
       path, ts⟩ :=
  ⟨rfl, rfl⟩

/-- C6: the removeMember decision table.  Given a requester membership and a
target membership of the same project: a requester below ADMIN is rejected
with Forbidden; an OWNER target is always rejected with Forbidden; an ADMIN
target is rejected with Forbidden whenever the requester is not the OWNER;
and a requester of rank at least ADMIN removing a MEMBER target succeeds,
deleting exactly the target membership. -/
theorem C6_removeMember_policy
    (st : ProjState) (pid rid tid : Nat) (reqM tgtM : ProjectMember)
    (hreq : getProjectMember st pid rid = .ok reqM)
    (htgt : st.members.find?
      (fun m => decide (m.userId = tid ∧ m.projectId = pid)) = some tgtM) :
    (hierarchy reqM.role < hierarchy Role.ADMIN →
      ProjectsService.removeMember st pid rid tid =
        .error (.Forbidden assertRoleDefaultMsg)) ∧
    (tgtM.role = Role.OWNER →
      ∃ msg, ProjectsService.removeMember st pid rid tid =
        .error (.Forbidden msg)) ∧
    (tgtM.role = Role.ADMIN → reqM.role ≠ Role.OWNER →
      ∃ msg, ProjectsService.removeMember st pid rid tid =
        .error (.Forbidden msg)) ∧
    (hierarchy Role.ADMIN ≤ hierarchy reqM.role → tgtM.role = Role.MEMBER →
      ProjectsService.removeMember st pid rid tid =
        .ok ("Member removed successfully",
          { st with members := (st.members.eraseP
              (fun m => decide (m.userId = tid ∧ m.projectId = pid))) })) := by
  unfold ProjectsService.removeMember assertRole
  simp only [hreq, htgt]
  refine ⟨fun hlow => ?_, fun hown => ?_, fun hadm hnotown => ?_,
    fun hhigh hmem => ?_⟩
  · rw [if_pos hlow]
  · by_cases hlow : hierarchy reqM.role < hierarchy Role.ADMIN
    · exact ⟨assertRoleDefaultMsg, by rw [if_pos hlow]⟩
    · refine ⟨"The project owner cannot be removed", ?_⟩
      rw [if_neg hlow]
      simp only [hown, if_pos]
  · by_cases hlow : hierarchy reqM.role < hierarchy Role.ADMIN
    · exact ⟨assertRoleDefaultMsg, by rw [if_pos hlow]⟩
    · refine ⟨"Only the owner can remove an admin", ?_⟩
      rw [if_neg hlow]
      have howner : tgtM.role ≠ Role.OWNER := by rw [hadm]; decide
      rw [if_neg howner, if_pos ⟨hadm, hnotown⟩]
  · rw [if_neg (by omega : ¬ hierarchy reqM.role < hierarchy Role.ADMIN)]
    have howner : tgtM.role ≠ Role.OWNER := by rw [hmem]; decide
    have hnadm : ¬ (tgtM.role = Role.ADMIN ∧ reqM.role ≠ Role.OWNER) := by
      rw [hmem]; simp
    rw [if_neg howner, if_neg hnadm]

/-- C6 (witness): in the fixture project the OWNER (id 5) removes the
MEMBER (id 6); the call succeeds and deletes that membership. -/
theorem C6_removeMember_policy_witness :
    ProjectsService.removeMember projFixture 1 5 6 =
      .ok ("Member removed successfully",
        { projFixture with members := (projFixture.members.eraseP
            (fun m => decide (m.userId = 6 ∧ m.projectId = 1))) }) :=
  (C6_removeMember_policy projFixture 1 5 6 ⟨5, 1, Role.OWNER⟩
      ⟨6, 1, Role.MEMBER⟩ (by decide) (by decide)).2.2.2
    (by decide) (by decide)

/-- Auxiliary: a findById-style lookup on the users list after the
refresh-token column update returns the original row with only its
refreshToken field replaced. -/
theorem find?_map_updateRefresh (users : List UserRec) (uid : Nat)
    (h? : Option TokHash) :
    ((users.map (fun u =>
        if u.id = uid then { u with refreshToken := h? } else u)).find?
      (fun u => decide (u.id = uid))) =
      (users.find? (fun u => decide (u.id = uid))).map
        (fun u => { u with refreshToken := h? }) := by
  induction users with
  | nil => rfl
  | cons v vs ih =>
    by_cases h : v.id = uid
    · simp [h]
    · simp [h, ih]

/-- Auxiliary: `UsersService.updateRefreshToken` commutes with findById as
a map on the found row's refreshToken field. -/
theorem findById_updateRefreshToken (st : AuthState) (uid : Nat)
    (h? : Option TokHash) :
    UsersService.findById (UsersService.updateRefreshToken st uid h?) uid =
      (UsersService.findById st uid).map
        (fun u => { u with refreshToken := h? }) := by
  unfold UsersService.findById UsersService.updateRefreshToken
  exact find?_map_updateRefresh st.users uid h?

/-- C7: logout semantics.  For an account that currently stores a
refresh-token hash: (1) logout always returns the same success message (in
particular a second logout is not an error), (2) after logout every row of
that account has no stored hash, (3) a second logout leaves the state
unchanged, and (4) for any refresh token of that account that still has a
valid signature and expiry, the Refresh Guard rejects it with Unauthorized
after the logout, because no stored hash remains to match. -/
theorem C7_logout_semantics
    (st : AuthState) (uid : Nat) (u : UserRec) (h : TokHash)
    (hfind : UsersService.findById st uid = some u)
    (hstored : u.refreshToken = some h) :
    (∀ st₀ uid₀, (AuthService.logout st₀ uid₀).1 = "Logged out successfully") ∧
    (∀ v ∈ (AuthService.logout st uid).2.users, v.id = uid →
      v.refreshToken = none) ∧
    (AuthService.logout (AuthService.logout st uid).2 uid =
      ("Logged out successfully", (AuthService.logout st uid).2)) ∧
    (∀ tok now, tok.sub = uid → tok.secret = Secret.refreshSecret →
      now < tok.exp →
      refreshGuard (AuthService.logout st uid).2 tok now =
        .error (.Unauthorized "Access denied")) := by
  have hlog : AuthService.logout st uid =
      ("Logged out successfully", UsersService.updateRefreshToken st uid none) := by
    unfold AuthService.logout
    simp only [hfind, hstored]
  have hfind' : UsersService.findById
      (UsersService.updateRefreshToken st uid none) uid =
      some { u with refreshToken := none } := by
    rw [findById_updateRefreshToken, hfind]; rfl
  refine ⟨?_, ?_, ?_, ?_⟩
  · intro st₀ uid₀
    unfold AuthService.logout
    cases hf : UsersService.findById st₀ uid₀ with
    | none => rfl
    | some w => cases w.refreshToken <;> rfl
  · intro v hv hvid
    rw [hlog] at hv
    unfold UsersService.updateRefreshToken at hv
    simp only [List.mem_map] at hv
    obtain ⟨w, _, rfl⟩ := hv
    by_cases hw : w.id = uid
    · simp [hw]
    · simp only [if_neg hw] at hvid ⊢
      exact absurd hvid hw
  · rw [hlog]
    unfold AuthService.logout
    rw [hfind']
  · intro tok now hsub hsec hexp
    rw [hlog]
    unfold refreshGuard JwtRefreshStrategy.validate
    rw [if_neg (by simp [hsec]), if_neg (by omega)]
    rw [hsub, hfind']

/-- Auxiliary: the Refresh Guard rejects a structurally valid, unexpired
token whenever the stored hash of the account does not match it. -/
theorem refreshGuard_rejects (st' : AuthState) (tok : Token) (now' : Nat)
    (w : UserRec) (stored' : TokHash)
    (hsec : tok.secret = Secret.refreshSecret) (hexp : ¬ tok.exp ≤ now')
    (hfind : UsersService.findById st' tok.sub = some w)
    (hrt : w.refreshToken = some stored')
    (hact : w.isActive = true)
    (hcmp : tokCompare tok stored' = false) :
    refreshGuard st' tok now' = .error (.Unauthorized "Access denied") := by
  unfold refreshGuard JwtRefreshStrategy.validate
  rw [if_neg (by simp [hsec]), if_neg hexp]
  simp only [hfind, hrt, hcmp, hact]
  simp

/-- C2: single-use rotation.  If the Refresh Guard accepts a token in some
state (so its signature and expiry are valid and it matches the stored
hash), and that token was issued before the state's current signer
freshness point, then after a successful `refreshTokens` call for the
guard-authenticated account — which unconditionally stores the hash of a
newly generated refresh token — presenting the old token to the Refresh
Guard fails with Unauthorized, even at a time at which the old token is
still unexpired. -/
theorem C2_refresh_rotates_old_token
    (st : AuthState) (oldTok : Token) (pu : PublicUser) (tnow now tnow' : Nat)
    (hguard : refreshGuard st oldTok tnow = .ok pu)
    (hfresh : oldTok.nonce < st.nonce)
    (hexp : tnow' < oldTok.exp) :
    refreshGuard (AuthService.refreshTokens st pu.id pu.email now).2
      oldTok tnow' = .error (.Unauthorized "Access denied") := by
  unfold refreshGuard JwtRefreshStrategy.validate at hguard
  by_cases hsec : oldTok.secret ≠ Secret.refreshSecret
  · rw [if_pos hsec] at hguard; exact absurd hguard (by simp)
  rw [if_neg hsec] at hguard
  by_cases hex : oldTok.exp ≤ tnow
  · rw [if_pos hex] at hguard; exact absurd hguard (by simp)
  rw [if_neg hex] at hguard
  cases hfind : UsersService.findById st oldTok.sub with
  | none => simp only [hfind] at hguard; exact absurd hguard (by simp)
  | some u =>
    simp only [hfind] at hguard
    cases hrt : u.refreshToken with
    | none => simp only [hrt] at hguard; exact absurd hguard (by simp)
    | some stored =>
      simp only [hrt] at hguard
      by_cases hact : u.isActive = false
      · rw [if_pos hact] at hguard; exact absurd hguard (by simp)
      rw [if_neg hact] at hguard
      by_cases hcmp : tokCompare oldTok stored = false
      · rw [if_pos hcmp] at hguard; exact absurd hguard (by simp)
      rw [if_neg hcmp] at hguard
      have hpu : pu = sanitizeUser u := by
        cases hguard; rfl
      have huid : u.id = oldTok.sub := by
        have := List.find?_some hfind
        simpa using this
      have hpuid : pu.id = oldTok.sub := by rw [hpu]; exact huid
      have hsec' : oldTok.secret = Secret.refreshSecret := by
        by_contra hcon; exact hsec hcon
      have hact' : u.isActive = true := by
        cases hua : u.isActive
        · exact absurd hua hact
        · rfl
      have hfind₁ : UsersService.findById
          ({ st with nonce := st.nonce + 1 } : AuthState) oldTok.sub =
          some u := hfind
      have hstep : AuthService.refreshTokens st pu.id pu.email now =
          ("Token refreshed successfully",
            UsersService.updateRefreshToken
              { st with nonce := st.nonce + 1 } pu.id
              (some ⟨⟨pu.id, pu.email, .refreshSecret, now,
                now + refreshTokenTtl, st.nonce⟩⟩)) := rfl
      rw [hstep]
      refine refreshGuard_rejects _ oldTok tnow'
        { u with refreshToken := some ⟨⟨pu.id, pu.email, .refreshSecret, now,
            now + refreshTokenTtl, st.nonce⟩⟩ }
        ⟨⟨pu.id, pu.email, .refreshSecret, now,
          now + refreshTokenTtl, st.nonce⟩⟩
        hsec' (by omega) ?_ rfl hact' ?_
      · rw [hpuid, findById_updateRefreshToken, hfind₁]
        rfl
      · unfold tokCompare
        simp only [decide_eq_false_iff_not]
        intro hcontra
        have : oldTok.nonce = st.nonce := by rw [hcontra]
        omega

/-- C2 (witness): the fixture account's stored token passes the guard, and
after a refresh call the same token is rejected while still unexpired. -/
theorem C2_refresh_rotates_old_token_witness :
    refreshGuard (AuthService.refreshTokens authFixture
        (sanitizeUser fixtureUser).id (sanitizeUser fixtureUser).email 10).2
      fixtureToken 20 = .error (.Unauthorized "Access denied") :=
  C2_refresh_rotates_old_token authFixture fixtureToken
    (sanitizeUser fixtureUser) 10 10 20
    (by decide) (by decide) (by decide)

/-- C3: login failure indistinguishability.  A login against an existing
account with a wrong password and a login against an email that matches no
account both fail with the identical Unauthorized "Invalid credentials"
error, and both runs perform exactly one bcrypt comparison (the second run
compares against the fixed invalid-hash constant). -/
theorem C3_login_indistinguishable
    (st : AuthState) (dto₁ dto₂ : AuthService.LoginDto) (now₁ now₂ : Nat)
    (u : UserRec)
    (h₁ : UsersService.findByEmail st dto₁.email = some u)
    (hwrong : pwCompare dto₁.password u.hashedPassword = false)
    (h₂ : UsersService.findByEmail st dto₂.email = none) :
    (AuthService.login st dto₁ now₁).outcome =
      .error (.Unauthorized "Invalid credentials") ∧
    (AuthService.login st dto₂ now₂).outcome =
      (AuthService.login st dto₁ now₁).outcome ∧
    (AuthService.login st dto₁ now₁).bcryptCompares = 1 ∧
    (AuthService.login st dto₂ now₂).bcryptCompares = 1 := by
  unfold AuthService.login
  simp [h₁, h₂, hwrong]

/-- C3 (witness): wrong password on the fixture account and a login with an
unknown email produce the identical error with one comparison each. -/
theorem C3_login_indistinguishable_witness :
    (AuthService.login authFixture ⟨"a@b.c", "wrong"⟩ 5).outcome =
      .error (.Unauthorized "Invalid credentials") ∧
    (AuthService.login authFixture ⟨"ghost@b.c", "wrong"⟩ 6).outcome =
      (AuthService.login authFixture ⟨"a@b.c", "wrong"⟩ 5).outcome ∧
    (AuthService.login authFixture ⟨"a@b.c", "wrong"⟩ 5).bcryptCompares = 1 ∧
    (AuthService.login authFixture ⟨"ghost@b.c", "wrong"⟩ 6).bcryptCompares = 1 :=
  C3_login_indistinguishable authFixture ⟨"a@b.c", "wrong"⟩
    ⟨"ghost@b.c", "wrong"⟩ 5 6 fixtureUser
    (by decide) (by decide) (by decide)

/-- Auxiliary: the frame relation holds between a row and itself. -/
theorem sameExceptRefreshToken_refl (a : UserRec) :
    sameExceptRefreshToken a a := by
  unfold sameExceptRefreshToken
  exact ⟨rfl, rfl, rfl, rfl, rfl, rfl, rfl⟩

/-- Auxiliary: the frame relation holds between a row and the row with only
its refreshToken field replaced. -/
theorem sameExceptRefreshToken_set (a : UserRec) (h? : Option TokHash) :
    sameExceptRefreshToken a { a with refreshToken := h? } := by
  unfold sameExceptRefreshToken
  exact ⟨rfl, rfl, rfl, rfl, rfl, rfl, rfl⟩

/-- Auxiliary: mapping the refresh-token column update over the users list
relates every row to its image by the frame relation. -/
theorem forall₂_sameExcept_update (users : List UserRec) (uid : Nat)
    (h? : Option TokHash) :
    List.Forall₂ sameExceptRefreshToken users
      (users.map (fun u =>
        if u.id = uid then { u with refreshToken := h? } else u)) := by
  induction users with
  | nil => exact List.Forall₂.nil
  | cons v vs ih =>
    refine List.Forall₂.cons ?_ ih
    show sameExceptRefreshToken v
      (if v.id = uid then { v with refreshToken := h? } else v)
    by_cases h : v.id = uid
    · rw [if_pos h]
      exact sameExceptRefreshToken_set v h?
    · rw [if_neg h]
      exact sameExceptRefreshToken_refl v

/-- Auxiliary: the frame relation is reflexive along a list. -/
theorem forall₂_sameExcept_refl (users : List UserRec) :
    List.Forall₂ sameExceptRefreshToken users users := by
  induction users with
  | nil => exact List.Forall₂.nil
  | cons v vs ih =>
    exact List.Forall₂.cons (sameExceptRefreshToken_refl v) ih

/-- C10: frame property.  `login`, `refreshTokens` and `logout` mutate at
most the rotating refresh-token hash of each account row: every other field
(id, email, username, first/last name, password hash, active flag) is
unchanged, row by row. -/
theorem C10_auth_frame (st : AuthState) (dto : AuthService.LoginDto)
    (uid : Nat) (email : String) (now : Nat) :
    List.Forall₂ sameExceptRefreshToken st.users
      (AuthService.login st dto now).state.users ∧
    List.Forall₂ sameExceptRefreshToken st.users
      (AuthService.refreshTokens st uid email now).2.users ∧
    List.Forall₂ sameExceptRefreshToken st.users
      (AuthService.logout st uid).2.users := by
  refine ⟨?_, ?_, ?_⟩
  · cases hf : UsersService.findByEmail st dto.email with
    | none =>
      simp only [AuthService.login, hf]
      exact forall₂_sameExcept_refl st.users
    | some u =>
      simp only [AuthService.login, hf]
      by_cases hpw : pwCompare dto.password u.hashedPassword = false
      · simp only [if_pos hpw]
        exact forall₂_sameExcept_refl st.users
      · simp only [if_neg hpw]
        by_cases hact : u.isActive = false
        · simp only [if_pos hact]
          exact forall₂_sameExcept_refl st.users
        · simp only [if_neg hact]
          unfold AuthService.generateTokens AuthService.storeRefreshToken
            UsersService.updateRefreshToken
          exact forall₂_sameExcept_update st.users u.id _
  · unfold AuthService.refreshTokens AuthService.generateTokens
      AuthService.storeRefreshToken UsersService.updateRefreshToken
    exact forall₂_sameExcept_update st.users uid _
  · cases hf : UsersService.findById st uid with
    | none =>
      simp only [AuthService.logout, hf]
      exact forall₂_sameExcept_refl st.users
    | some u =>
      cases hrt : u.refreshToken with
      | none =>
        simp only [AuthService.logout, hf, hrt]
        exact forall₂_sameExcept_refl st.users
      | some h =>
        simp only [AuthService.logout, hf, hrt]
        unfold UsersService.updateRefreshToken
        exact forall₂_sameExcept_update st.users uid none

/-- C7 (witness): logging the fixture account out twice returns the same
success message and leaves the state of the first logout unchanged. -/
theorem C7_logout_semantics_witness :
    AuthService.logout (AuthService.logout authFixture 1).2 1 =
      ("Logged out successfully", (AuthService.logout authFixture 1).2) :=
  (C7_logout_semantics authFixture 1 fixtureUser ⟨fixtureToken⟩
    (by decide) (by decide)).2.2.1

/-- Auxiliary: every element of a ticket list is bounded by the running
maximum of the numbers. -/
theorem foldr_max_number_ge (t : TicketRec) (l : List TicketRec) (ht : t ∈ l) :
    t.number ≤ l.foldr (fun u acc => max u.number acc) 0 := by
  induction ht with
  | head l' => exact le_max_left _ _
  | tail b hmem ih => exact le_trans ih (le_max_right _ _)

/-- Auxiliary: the number of every ticket of a project is at most the
project's maximum number as read by the sequencer. -/
theorem maxTicketNumber_ge (tickets : List TicketRec) (pid : Nat)
    (t : TicketRec) (ht : t ∈ tickets) (hp : t.projectId = pid) :
    t.number ≤ TicketsService.maxTicketNumber tickets pid := by
  unfold TicketsService.maxTicketNumber
  refine foldr_max_number_ge t _ ?_
  rw [List.mem_filter]
  exact ⟨ht, by simp [hp]⟩

/-- C4: ticket sequence assignment.  (1) A create call that passes the
membership and status checks succeeds and assigns number `max + 1` (1 when
the project has no tickets, since the read then yields 0), appending the
row.  (2) Any insert that gets past the store's (projectId, number) unique
constraint preserves pairwise distinctness of the project's numbers — even
an insert whose number was computed from a stale read, as in a concurrent
race.  (3) An insert whose (projectId, number) pair already exists fails
with a Conflict, making the constraint the final arbiter. -/
theorem C4_ticket_sequencer :
    (∀ st pid uid dto mem stat,
      getProjectMember st pid uid = .ok mem →
      TicketsService.validateStatusInProject st dto.statusId pid = .ok stat →
      TicketsService.create st pid uid dto =
        .ok (⟨st.nextId, pid, TicketsService.maxTicketNumber st.tickets pid + 1,
              dto.statusId, TicketsService.nextOrderInColumn st.tickets dto.statusId⟩,
          { st with
            tickets := st.tickets ++
              [⟨st.nextId, pid, TicketsService.maxTicketNumber st.tickets pid + 1,
                dto.statusId, TicketsService.nextOrderInColumn st.tickets dto.statusId⟩],
            nextId := st.nextId + 1 })) ∧
    (∀ tickets t l, projectNumbersDistinct tickets →
      TicketsService.dbInsertTicket tickets t = .ok l →
      projectNumbersDistinct l) ∧
    (∀ tickets t u, u ∈ tickets → u.projectId = t.projectId →
      u.number = t.number →
      TicketsService.dbInsertTicket tickets t =
        .error (.Conflict "Unique constraint failed on (project_id, number)")) := by
  refine ⟨?_, ?_, ?_⟩
  · intro st pid uid dto mem stat hmem hstat
    have hnoconf : st.tickets.any (fun u => decide (u.projectId = pid ∧
        u.number = TicketsService.maxTicketNumber st.tickets pid + 1)) = false := by
      rw [List.any_eq_false]
      intro u hu
      simp only [decide_eq_true_eq, not_and]
      intro hup hun
      have := maxTicketNumber_ge st.tickets pid u hu hup
      omega
    unfold TicketsService.create TicketsService.dbInsertTicket
    simp only [hmem, hstat, hnoconf]
    simp
  · intro tickets t l hdist hok
    unfold TicketsService.dbInsertTicket at hok
    by_cases hany : tickets.any
        (fun u => decide (u.projectId = t.projectId ∧ u.number = t.number)) = true
    · rw [if_pos hany] at hok
      exact absurd hok (by simp)
    · rw [if_neg hany] at hok
      cases hok
      unfold projectNumbersDistinct at hdist ⊢
      rw [List.pairwise_append]
      refine ⟨hdist, List.pairwise_singleton _ _, ?_⟩
      intro a ha b hb
      have hb' : b = t := by simpa using hb
      subst hb'
      rw [Bool.not_eq_true, List.any_eq_false] at hany
      have := hany a ha
      simp only [decide_eq_true_eq, not_and] at this
      exact this
  · intro tickets t u hu hup hun
    unfold TicketsService.dbInsertTicket
    rw [if_pos (List.any_eq_true.mpr ⟨u, hu, by simp [hup, hun]⟩)]

/-- C4 (witness): creating a ticket in the fixture project (max number 3)
assigns number 4 and appends at order 2 of the target column; an insert that
passed the constraint keeps numbers distinct; an insert that duplicates the
pair (project 1, number 3) is rejected with Conflict. -/
theorem C4_ticket_sequencer_witness :
    (TicketsService.create projFixture 1 5 ⟨20⟩ =
      .ok (⟨projFixture.nextId, 1,
            TicketsService.maxTicketNumber projFixture.tickets 1 + 1, 20,
            TicketsService.nextOrderInColumn projFixture.tickets 20⟩,
        { projFixture with
          tickets := projFixture.tickets ++
            [⟨projFixture.nextId, 1,
              TicketsService.maxTicketNumber projFixture.tickets 1 + 1, 20,
              TicketsService.nextOrderInColumn projFixture.tickets 20⟩],
          nextId := projFixture.nextId + 1 })) ∧
    projectNumbersDistinct (projFixture.tickets ++ [⟨200, 1, 4, 20, 2⟩]) ∧
    TicketsService.dbInsertTicket projFixture.tickets ⟨201, 1, 3, 20, 5⟩ =
      .error (.Conflict "Unique constraint failed on (project_id, number)") :=
  ⟨C4_ticket_sequencer.1 projFixture 1 5 ⟨20⟩ ⟨5, 1, Role.OWNER⟩
      ⟨20, 10, "To Do", "#6B7280", 0, true⟩ (by decide) (by decide),
   C4_ticket_sequencer.2.1 projFixture.tickets ⟨200, 1, 4, 20, 2⟩
      (projFixture.tickets ++ [⟨200, 1, 4, 20, 2⟩]) (by decide) (by decide),
   C4_ticket_sequencer.2.2 projFixture.tickets ⟨201, 1, 3, 20, 5⟩
      ⟨102, 1, 3, 21, 0⟩ (by decide) (by decide) (by decide)⟩

/-- Auxiliary: erasing the first match of a predicate does not change the
count of a property that the first match does not satisfy. -/
theorem countP_eraseP_of_find? (p q : ProjectMember → Bool) :
    ∀ (l : List ProjectMember),
      (match l.find? p with
       | some a => q a = false
       | none => True) →
      (l.eraseP p).countP q = l.countP q := by
  intro l
  induction l with
  | nil => intro _; rfl
  | cons v vs ih =>
    intro hfirst
    by_cases hv : p v = true
    · rw [List.find?_cons_of_pos _ hv] at hfirst
      have hqv : q v = false := hfirst
      rw [List.eraseP_cons_of_pos hv]
      rw [List.countP_cons, hqv]
      simp
    · have hv' : ¬ p v := by simpa using hv
      rw [List.find?_cons_of_neg _ hv'] at hfirst
      rw [List.eraseP_cons_of_neg hv']
      rw [List.countP_cons, List.countP_cons, ih hfirst]

/-- Auxiliary: when the project exists, a failing membership resolution can
only be the Forbidden non-member error. -/
theorem getProjectMember_error_forbidden (st : ProjState) (pid uid : Nat)
    (e : DomainError)
    (hproj : (st.projects.find? (fun p => decide (p.id = pid))).isSome = true)
    (hgm : getProjectMember st pid uid = .error e) :
    e = .Forbidden "You are not a member of this project" := by
  unfold getProjectMember at hgm
  cases hpf : st.projects.find? (fun p => decide (p.id = pid)) with
  | none => rw [hpf] at hproj; exact absurd hproj (by simp)
  | some pr0 =>
    simp only [hpf] at hgm
    cases hmf : st.members.find?
        (fun mm => decide (mm.userId = uid ∧ mm.projectId = pid)) with
    | none =>
      simp only [hmf] at hgm
      cases hgm
      rfl
    | some r =>
      simp only [hmf] at hgm
      exact absurd hgm (by simp)

/-- C5: the single-OWNER invariant across membership mutations.
(1) Creation: on a well-formed store, a successful project creation makes
the creator's OWNER membership the only membership of the fresh project, so
its OWNER count is 1.  (2) Invite: a successful inviteMember only ever
grants ADMIN or MEMBER (MEMBER when the DTO carries no role), and leaves
the OWNER count of every project unchanged.  (3) Remove: whenever the
project exists and the target membership's role is OWNER, removeMember
fails with Forbidden; and (4) any successful removeMember leaves the OWNER
count of every project unchanged (it only ever deletes a non-OWNER row). -/
theorem C5_single_owner :
    (∀ st uid dto pr st', wfState st →
      ProjectsService.create st uid dto = .ok (pr, st') →
      st'.members.filter (fun m => decide (m.projectId = pr.id)) =
        [⟨uid, pr.id, Role.OWNER⟩] ∧
      ownerCount st'.members pr.id = 1) ∧
    (∀ st pid iid dto m st',
      ProjectsService.inviteMember st pid iid dto = .ok (m, st') →
      (m.role = Role.ADMIN ∨ m.role = Role.MEMBER) ∧
      (dto.role = none → m.role = Role.MEMBER) ∧
      ∀ p, ownerCount st'.members p = ownerCount st.members p) ∧
    (∀ st pid rid tid tgtM,
      (st.projects.find? (fun p => decide (p.id = pid))).isSome = true →
      st.members.find?
        (fun m => decide (m.userId = tid ∧ m.projectId = pid)) = some tgtM →
      tgtM.role = Role.OWNER →
      ∃ msg, ProjectsService.removeMember st pid rid tid =
        .error (.Forbidden msg)) ∧
    (∀ st pid rid tid r st',
      ProjectsService.removeMember st pid rid tid = .ok (r, st') →
      ∀ p, ownerCount st'.members p = ownerCount st.members p) := by
  refine ⟨?_, ?_, ?_, ?_⟩
  · intro st uid dto pr st' hwf hok
    obtain ⟨-, -, hm, -, -, -⟩ := hwf
    unfold ProjectsService.create at hok
    by_cases hks : (st.projects.find? (fun p => decide (p.key = dto.key))).isSome = true
    · rw [if_pos hks] at hok
      exact absurd hok (by simp)
    · rw [if_neg hks] at hok
      simp only [Except.ok.injEq, Prod.mk.injEq] at hok
      obtain ⟨hpr, hst⟩ := hok
      subst hpr
      subst hst
      have hold1 : List.filter
          (fun m => decide (m.projectId = st.nextId)) st.members = [] := by
        rw [List.filter_eq_nil_iff]
        intro m hm'
        have := hm m hm'
        simp only [decide_eq_true_eq]
        omega
      have hold2 : List.filter
          (fun m => decide (m.projectId = st.nextId ∧ m.role = Role.OWNER))
          st.members = [] := by
        rw [List.filter_eq_nil_iff]
        intro m hm'
        have := hm m hm'
        simp only [decide_eq_true_eq, not_and]
        intro h
        omega
      constructor
      · simp only [List.filter_append]
        simp [hold1]
      · unfold ownerCount
        simp only [List.filter_append]
        simp
        intro a ha h1
        exfalso
        have := hm a ha
        omega
  · intro st pid iid dto m st' hok
    unfold ProjectsService.inviteMember at hok
    cases hgm : getProjectMember st pid iid with
    | error e =>
      simp only [hgm] at hok
      exact absurd hok (by simp)
    | ok inviter =>
      simp only [hgm, assertRole] at hok
      by_cases hlow : hierarchy inviter.role < hierarchy Role.ADMIN
      · rw [if_pos hlow] at hok
        simp at hok
      · rw [if_neg hlow] at hok
        cases huf : st.users.find? (fun u => decide (u.email = dto.email)) with
        | none =>
          simp only [huf] at hok
          exact absurd hok (by simp)
        | some userToInvite =>
          simp only [huf] at hok
          cases hmf : st.members.find?
              (fun mm => decide (mm.userId = userToInvite.id ∧
                mm.projectId = pid)) with
          | some old =>
            simp only [hmf] at hok
            exact absurd hok (by simp)
          | none =>
            simp only [hmf, Except.ok.injEq, Prod.mk.injEq] at hok
            obtain ⟨hmr, hst⟩ := hok
            subst hmr
            subst hst
            have hrole : ((dto.role.map ProjectsService.InviteRole.toRole).getD
                Role.MEMBER = Role.ADMIN) ∨
                ((dto.role.map ProjectsService.InviteRole.toRole).getD
                Role.MEMBER = Role.MEMBER) := by
              cases hdr : dto.role with
              | none => right; rfl
              | some ir => cases ir
                           · left; rfl
                           · right; rfl
            refine ⟨hrole, fun hnone => by rw [hnone]; rfl, ?_⟩
            intro p
            unfold ownerCount
            rw [List.filter_append]
            simp
            intro _
            rcases hrole with hr | hr <;> simp [hr]
  · intro st pid rid tid tgtM hproj htgt hown
    cases hgm : getProjectMember st pid rid with
    | error e =>
      have he := getProjectMember_error_forbidden st pid rid e hproj hgm
      subst he
      refine ⟨"You are not a member of this project", ?_⟩
      unfold ProjectsService.removeMember
      simp only [hgm]
    | ok reqM =>
      by_cases hlow : hierarchy reqM.role < hierarchy Role.ADMIN
      · refine ⟨assertRoleDefaultMsg, ?_⟩
        unfold ProjectsService.removeMember assertRole
        simp only [hgm]
        rw [if_pos hlow]
      · refine ⟨"The project owner cannot be removed", ?_⟩
        unfold ProjectsService.removeMember assertRole
        simp only [hgm]
        rw [if_neg hlow]
        simp only [htgt, hown]
        simp
  · intro st pid rid tid r st' hok
    unfold ProjectsService.removeMember assertRole at hok
    cases hgm : getProjectMember st pid rid with
    | error e =>
      simp only [hgm] at hok
      exact absurd hok (by simp)
    | ok reqM =>
      simp only [hgm] at hok
      by_cases hlow : hierarchy reqM.role < hierarchy Role.ADMIN
      · rw [if_pos hlow] at hok
        simp at hok
      · rw [if_neg hlow] at hok
        cases hmf : st.members.find?
            (fun mm => decide (mm.userId = tid ∧ mm.projectId = pid)) with
        | none =>
          simp only [hmf] at hok
          exact absurd hok (by simp)
        | some tgtM =>
          simp only [hmf] at hok
          by_cases hown : tgtM.role = Role.OWNER
          · rw [if_pos hown] at hok
            simp at hok
          · rw [if_neg hown] at hok
            by_cases hadm : tgtM.role = Role.ADMIN ∧ reqM.role ≠ Role.OWNER
            · rw [if_pos hadm] at hok
              simp at hok
            · rw [if_neg hadm] at hok
              simp only [Except.ok.injEq, Prod.mk.injEq] at hok
              obtain ⟨-, hst⟩ := hok
              subst hst
              intro p
              unfold ownerCount
              rw [← List.countP_eq_length_filter, ← List.countP_eq_length_filter]
              apply countP_eraseP_of_find?
              rw [hmf]
              simp [hown]

/-- C5 (witness): creating a fresh project in the fixture store seeds the
creator (id 7) as sole OWNER; the OWNER (id 5) inviting the spare user
(id 7) with no explicit role grants MEMBER and keeps OWNER counts; removing
the OWNER (id 5) fails with Forbidden; successfully removing the MEMBER
(id 6) keeps the OWNER count of project 1. -/
theorem C5_single_owner_witness :
    (∀ pr st', ProjectsService.create projFixture 7 ⟨"Q", "NEW", none⟩ =
        .ok (pr, st') →
      st'.members.filter (fun m => decide (m.projectId = pr.id)) =
        [⟨7, pr.id, Role.OWNER⟩] ∧ ownerCount st'.members pr.id = 1) ∧
    (∀ m st', ProjectsService.inviteMember projFixture 1 5 ⟨"new@x.c", none⟩ =
        .ok (m, st') →
      (m.role = Role.ADMIN ∨ m.role = Role.MEMBER) ∧
      (m.role = Role.MEMBER) ∧
      ∀ p, ownerCount st'.members p = ownerCount projFixture.members p) ∧
    (∃ msg, ProjectsService.removeMember projFixture 1 6 5 =
      .error (.Forbidden msg)) ∧
    (∀ r st', ProjectsService.removeMember projFixture 1 5 6 = .ok (r, st') →
      ∀ p, ownerCount st'.members p = ownerCount projFixture.members p) := by
  refine ⟨?_, ?_, ?_, ?_⟩
  · intro pr st' hok
    exact C5_single_owner.1 projFixture 7 ⟨"Q", "NEW", none⟩ pr st'
      (by decide) hok
  · intro m st' hok
    obtain ⟨h1, h2, h3⟩ :=
      C5_single_owner.2.1 projFixture 1 5 ⟨"new@x.c", none⟩ m st' hok
    exact ⟨h1, h2 rfl, h3⟩
  · exact C5_single_owner.2.2.1 projFixture 1 6 5 ⟨5, 1, Role.OWNER⟩
      (by decide) (by decide) (by decide)
  · intro r st' hok
    exact C5_single_owner.2.2.2 projFixture 1 5 6 r st' hok

/-- C8: create/read round trip.  On a well-formed store, creating a project
with a free key succeeds, and reading the project back yields exactly one
membership — the creator as OWNER — and a board whose status list is
exactly the four seeded defaults "To Do", "In Progress", "In Review",
"Done" with orders 0..3 and only "To Do" flagged default. -/
theorem C8_create_read_round_trip
    (st : ProjState) (uid : Nat) (dto : ProjectsService.CreateProjectDto)
    (hwf : wfState st)
    (hkey : (st.projects.find? (fun p => decide (p.key = dto.key))).isSome
      = false) :
    ∃ pr st' b sts,
      ProjectsService.create st uid dto = .ok (pr, st') ∧
      ProjectsService.findOne st' pr.id uid =
        .ok ⟨pr, [⟨uid, pr.id, Role.OWNER⟩], some (b, sts)⟩ ∧
      sts.map (fun s => (s.name, s.order, s.isDefault)) =
        [("To Do", 0, true), ("In Progress", 1, false),
         ("In Review", 2, false), ("Done", 3, false)] := by
  obtain ⟨hu, hp, hm, hb, hs, ht⟩ := hwf
  refine ⟨⟨st.nextId, dto.name,
      ProjectsService.generateUniqueSlug st.projects dto.name, dto.key,
      dto.description, false⟩,
    { st with
      projects := st.projects ++ [⟨st.nextId, dto.name,
        ProjectsService.generateUniqueSlug st.projects dto.name, dto.key,
        dto.description, false⟩]
      members := st.members ++ [⟨uid, st.nextId, Role.OWNER⟩]
      boards := st.boards ++ [⟨st.nextId + 1, st.nextId,
        dto.name ++ " Board"⟩]
      statuses := st.statuses ++
        [⟨st.nextId + 2 + 0, st.nextId + 1, "To Do", "#6B7280", 0, true⟩,
         ⟨st.nextId + 2 + 1, st.nextId + 1, "In Progress", "#3B82F6", 1, false⟩,
         ⟨st.nextId + 2 + 2, st.nextId + 1, "In Review", "#F59E0B", 2, false⟩,
         ⟨st.nextId + 2 + 3, st.nextId + 1, "Done", "#10B981", 3, false⟩]
      nextId := st.nextId + 2 + ProjectsService.DEFAULT_STATUSES.length },
    ⟨st.nextId + 1, st.nextId, dto.name ++ " Board"⟩,
    [⟨st.nextId + 2 + 0, st.nextId + 1, "To Do", "#6B7280", 0, true⟩,
     ⟨st.nextId + 2 + 1, st.nextId + 1, "In Progress", "#3B82F6", 1, false⟩,
     ⟨st.nextId + 2 + 2, st.nextId + 1, "In Review", "#F59E0B", 2, false⟩,
     ⟨st.nextId + 2 + 3, st.nextId + 1, "Done", "#10B981", 3, false⟩],
    ?_, ?_, ?_⟩
  · unfold ProjectsService.create
    rw [if_neg (by simp [hkey])]
    rfl
  · have h1 : st.projects.find? (fun p => decide (p.id = st.nextId))
        = none := by
      rw [List.find?_eq_none]
      intro p hp'
      have := hp p hp'
      simp only [decide_eq_true_eq]
      omega
    have h2 : st.members.find?
        (fun m => decide (m.userId = uid ∧ m.projectId = st.nextId))
        = none := by
      rw [List.find?_eq_none]
      intro m hm'
      have := hm m hm'
      simp only [decide_eq_true_eq, not_and]
      intro _
      omega
    have h3 : st.members.filter
        (fun m => decide (m.projectId = st.nextId)) = [] := by
      rw [List.filter_eq_nil_iff]
      intro m hm'
      have := hm m hm'
      simp only [decide_eq_true_eq]
      omega
    have h4 : st.boards.find? (fun b => decide (b.projectId = st.nextId))
        = none := by
      rw [List.find?_eq_none]
      intro b hb'
      have := (hb b hb').2
      simp only [decide_eq_true_eq]
      omega
    have h5 : st.statuses.filter
        (fun s => decide (s.boardId = st.nextId + 1)) = [] := by
      rw [List.filter_eq_nil_iff]
      intro s hs'
      have := hs s hs'
      simp only [decide_eq_true_eq]
      omega
    unfold ProjectsService.findOne getProjectMember
    simp only [List.find?_append, List.filter_append, h1, h2, h3, h4, h5]
    simp [ProjectsService.sortByOrder, ProjectsService.insertByOrder,
      ProjectsService.DEFAULT_STATUSES, h1, h2, h3, h4, h5]
  · rfl

/-- C8 (witness): the round trip on the fixture store with a fresh key. -/
theorem C8_create_read_round_trip_witness :
    ∃ pr st' b sts,
      ProjectsService.create projFixture 7 ⟨"Q", "NEW", none⟩ =
        .ok (pr, st') ∧
      ProjectsService.findOne st' pr.id 7 =
        .ok ⟨pr, [⟨7, pr.id, Role.OWNER⟩], some (b, sts)⟩ ∧
      sts.map (fun s => (s.name, s.order, s.isDefault)) =
        [("To Do", 0, true), ("In Progress", 1, false),
         ("In Review", 2, false), ("Done", 3, false)] :=
  C8_create_read_round_trip projFixture 7 ⟨"Q", "NEW", none⟩
    (by decide) (by decide)

/-- Auxiliary: unfolding of the move transaction over a cons cell. -/
theorem applyMove_cons (t : TicketRec) (ts : List TicketRec)
    (movedId target i : Nat) :
    TicketsService.applyMove (t :: ts) movedId target i =
      TicketsService.placeTicket movedId target i
        (TicketsService.shiftTicket target i movedId t) ::
      TicketsService.applyMove ts movedId target i := rfl

/-- Auxiliary: the move transaction leaves a ticket other than the moved
one in its column, bumping its order exactly when it is in the target
column at or past the insertion index. -/
theorem applyMove_head_not_moved (t : TicketRec) (movedId target i : Nat)
    (hid : t.id ≠ movedId) :
    TicketsService.placeTicket movedId target i
      (TicketsService.shiftTicket target i movedId t) =
      if t.statusId = target ∧ i ≤ t.order then
        { t with order := t.order + 1 }
      else t := by
  unfold TicketsService.placeTicket TicketsService.shiftTicket
  by_cases hst : t.statusId = target <;> by_cases hio : i ≤ t.order <;>
    simp [hst, hio, hid]

/-- Auxiliary: the move transaction sends the moved ticket to the target
column at the target index. -/
theorem applyMove_head_moved (t : TicketRec) (movedId target i : Nat)
    (hid : t.id = movedId) :
    TicketsService.placeTicket movedId target i
      (TicketsService.shiftTicket target i movedId t) =
      { t with statusId := target, order := i } := by
  unfold TicketsService.placeTicket TicketsService.shiftTicket
  simp [hid]

/-- Auxiliary: cons unfolding of a column's order list. -/
theorem columnOrders_cons (t : TicketRec) (ts : List TicketRec)
    (statusId : Nat) :
    columnOrders (t :: ts) statusId =
      if t.statusId = statusId then t.order :: columnOrders ts statusId
      else columnOrders ts statusId := by
  unfold columnOrders
  by_cases h : t.statusId = statusId <;> simp [h]

/-- Auxiliary: when the moved id occurs nowhere, the move transaction acts
on a column's orders as the pointwise shift. -/
theorem columnOrders_applyMove_no_moved (l : List TicketRec)
    (movedId target i : Nat) (h : ∀ t ∈ l, t.id ≠ movedId) :
    columnOrders (TicketsService.applyMove l movedId target i) target =
      (columnOrders l target).map (shiftGe i) := by
  induction l with
  | nil => rfl
  | cons t ts ih =>
    have hts : ∀ u ∈ ts, u.id ≠ movedId := fun u hu => h u (List.mem_cons_of_mem t hu)
    have htid : t.id ≠ movedId := h t (List.mem_cons_self t ts)
    rw [applyMove_cons, applyMove_head_not_moved t movedId target i htid]
    by_cases hst : t.statusId = target
    · by_cases hio : i ≤ t.order
      · rw [if_pos ⟨hst, hio⟩, columnOrders_cons, columnOrders_cons]
        simp only [hst, if_pos]
        rw [ih hts]
        simp [shiftGe, hio]
      · rw [if_neg (by intro hc; exact hio hc.2), columnOrders_cons,
          columnOrders_cons, if_pos hst, if_pos hst]
        rw [ih hts]
        simp [shiftGe, hio]
    · rw [if_neg (by intro hc; exact hst hc.1), columnOrders_cons,
        columnOrders_cons, if_neg hst, if_neg hst]
      exact ih hts

/-- Auxiliary: a cross-column move permutes the target column's orders into
the target index together with the shifted previous orders. -/
theorem columnOrders_applyMove_perm (l : List TicketRec)
    (movedId target i : Nat) (tm : TicketRec)
    (htm : tm ∈ l) (hid : tm.id = movedId) (hcross : tm.statusId ≠ target)
    (hids : (l.map TicketRec.id).Nodup) :
    (columnOrders (TicketsService.applyMove l movedId target i) target).Perm
      (i :: (columnOrders l target).map (shiftGe i)) := by
  induction l with
  | nil => cases htm
  | cons t ts ih =>
    rw [List.map_cons, List.nodup_cons] at hids
    obtain ⟨hhead, htail⟩ := hids
    rcases List.mem_cons.mp htm with rfl | hmem
    · rw [applyMove_cons, applyMove_head_moved tm movedId target i hid,
        columnOrders_cons, columnOrders_cons]
      simp only [if_pos rfl]
      rw [if_neg hcross]
      have hts : ∀ u ∈ ts, u.id ≠ movedId := by
        intro u hu hc
        rw [← hid] at hc
        exact hhead (hc ▸ List.mem_map_of_mem TicketRec.id hu)
      rw [columnOrders_applyMove_no_moved ts movedId target i hts]
      simp
    · have htid : t.id ≠ movedId := by
        intro hc
        rw [← hid] at hc
        exact hhead (hc ▸ List.mem_map_of_mem TicketRec.id hmem)
      rw [applyMove_cons, applyMove_head_not_moved t movedId target i htid]
      by_cases hst : t.statusId = target
      · have hhd :
            (if t.statusId = target ∧ i ≤ t.order then
              { t with order := t.order + 1 } else t).statusId = target := by
          by_cases hio : i ≤ t.order
          · rw [if_pos ⟨hst, hio⟩]; exact hst
          · rw [if_neg (by intro hc; exact hio hc.2)]; exact hst
        have hho :
            (if t.statusId = target ∧ i ≤ t.order then
              { t with order := t.order + 1 } else t).order =
              shiftGe i t.order := by
          by_cases hio : i ≤ t.order
          · rw [if_pos ⟨hst, hio⟩]
            unfold shiftGe
            rw [if_pos hio]
          · rw [if_neg (by intro hc; exact hio hc.2)]
            unfold shiftGe
            rw [if_neg hio]
        rw [columnOrders_cons, if_pos hhd, hho, columnOrders_cons,
          if_pos hst, List.map_cons]
        refine ((ih hmem htail).cons (shiftGe i t.order)).trans ?_
        exact List.Perm.swap i (shiftGe i t.order) _
      · have hhd :
            (if t.statusId = target ∧ i ≤ t.order then
              { t with order := t.order + 1 } else t).statusId ≠ target := by
          rw [if_neg (by intro hc; exact hst hc.1)]
          exact hst
        rw [columnOrders_cons, if_neg hhd, columnOrders_cons, if_neg hst]
        exact ih hmem htail

/-- Auxiliary: the order shift of the reorder engine is injective. -/
theorem shiftGe_injective (i : Nat) : Function.Injective (shiftGe i) := by
  intro a b hab
  unfold shiftGe at hab
  by_cases ha : i ≤ a <;> by_cases hb : i ≤ b
  · rw [if_pos ha, if_pos hb] at hab
    omega
  · rw [if_pos ha, if_neg hb] at hab
    omega
  · rw [if_neg ha, if_pos hb] at hab
    omega
  · rw [if_neg ha, if_neg hb] at hab
    omega

/-- Auxiliary: inserting the target index in front of the shifted orders of
a dense column (with index at most the column size) is again dense. -/
theorem denseOrders_cons_shift (os : List Nat) (i : Nat)
    (hd : denseOrders os) (hle : i ≤ os.length) :
    denseOrders (i :: os.map (shiftGe i)) := by
  obtain ⟨hnd, hbound⟩ := hd
  constructor
  · rw [List.nodup_cons]
    constructor
    · intro hmem
      obtain ⟨o, ho, heq⟩ := List.mem_map.mp hmem
      unfold shiftGe at heq
      by_cases h : i ≤ o
      · rw [if_pos h] at heq; omega
      · rw [if_neg h] at heq; omega
    · exact hnd.map (shiftGe_injective i)
  · intro o ho
    simp only [List.length_cons, List.length_map]
    rcases List.mem_cons.mp ho with rfl | hmem
    · omega
    · obtain ⟨o', ho', heq⟩ := List.mem_map.mp hmem
      have := hbound o' ho'
      unfold shiftGe at heq
      by_cases h : i ≤ o'
      · rw [if_pos h] at heq; omega
      · rw [if_neg h] at heq; omega

/-- Auxiliary: density of an order list is invariant under permutation. -/
theorem denseOrders_of_perm (os os' : List Nat) (hperm : os.Perm os')
    (hd : denseOrders os) : denseOrders os' := by
  obtain ⟨hnd, hbound⟩ := hd
  refine ⟨hperm.nodup hnd, ?_⟩
  intro o ho
  rw [← hperm.length_eq]
  exact hbound o (hperm.mem_iff.mpr ho)

/-- C1 (counterexample): a move within the same column can break density.
In the fixture project, column 20 holds two tickets with orders 0 and 1;
moving the ticket of order 0 to index 0 of its own column succeeds and
leaves the column's order values as [0, 2] — for k = 2 tickets these are
not 0..k-1, refuting the claim as stated at this input. -/
theorem C1_counterexample :
    TicketsService.move projFixture 1 100 5 ⟨20, 0⟩ =
      .ok { projFixture with
            tickets := [⟨100, 1, 1, 20, 0⟩, ⟨101, 1, 2, 20, 2⟩,
                        ⟨102, 1, 3, 21, 0⟩] } ∧
    columnOrders [(⟨100, 1, 1, 20, 0⟩ : TicketRec), ⟨101, 1, 2, 20, 2⟩,
        ⟨102, 1, 3, 21, 0⟩] 20 = [0, 2] ∧
    ¬ denseOrders [0, 2] :=
  ⟨by decide, by decide, by decide⟩

/-- C1 (amended): cross-column density.  For a move whose target column is
different from the ticket's current column, if the membership and status
checks pass, the ticket exists in the project (with ticket row ids unique),
the target column's order values are dense beforehand, and the target index
is at most the target column's current size, then the move succeeds and
afterwards the target column's order values are exactly 0..k-1 for its k
tickets.  (For a same-column move the operation can leave a gap at the
ticket's former position, as the counterexample shows.) -/
theorem C1_move_dense_amended
    (st : ProjState) (pid ticketId uid : Nat)
    (dto : TicketsService.MoveTicketDto)
    (mem : ProjectMember) (stat : StatusRec) (tm : TicketRec)
    (hmem : getProjectMember st pid uid = .ok mem)
    (hstat : TicketsService.validateStatusInProject st dto.statusId pid =
      .ok stat)
    (htm : tm ∈ st.tickets) (hid : tm.id = ticketId)
    (hpid : tm.projectId = pid)
    (hcross : tm.statusId ≠ dto.statusId)
    (hids : (st.tickets.map TicketRec.id).Nodup)
    (hdense : denseOrders (columnOrders st.tickets dto.statusId))
    (hle : dto.order ≤ (columnOrders st.tickets dto.statusId).length) :
    ∃ st', TicketsService.move st pid ticketId uid dto = .ok st' ∧
      denseOrders (columnOrders st'.tickets dto.statusId) := by
  cases hf : st.tickets.find?
      (fun t => decide (t.id = ticketId ∧ t.projectId = pid)) with
  | none =>
    exfalso
    rw [List.find?_eq_none] at hf
    exact hf tm htm (by simp [hid, hpid])
  | some t0 =>
    refine ⟨{ st with tickets := (TicketsService.applyMove st.tickets
        ticketId dto.statusId dto.order) }, ?_, ?_⟩
    · unfold TicketsService.move
      simp only [hmem, hstat, hf]
    · refine denseOrders_of_perm _ _
        (columnOrders_applyMove_perm st.tickets ticketId dto.statusId
          dto.order tm htm hid hcross hids).symm ?_
      exact denseOrders_cons_shift _ dto.order hdense hle

/-- C1 (witness): moving ticket 100 from column 20 to index 0 of column 21
(which holds one ticket at order 0) succeeds and leaves column 21 dense. -/
theorem C1_move_dense_amended_witness :
    ∃ st', TicketsService.move projFixture 1 100 5 ⟨21, 0⟩ = .ok st' ∧
      denseOrders (columnOrders st'.tickets 21) :=
  C1_move_dense_amended projFixture 1 100 5 ⟨21, 0⟩
    ⟨5, 1, Role.OWNER⟩ ⟨21, 10, "Done", "#10B981", 3, false⟩
    ⟨100, 1, 1, 20, 0⟩ (by decide) (by decide) (by decide) (by decide)
    (by decide) (by decide) (by decide) (by decide) (by decide)

end Lume
